import Mathlib

/-!
Verification development for the claude-researcher paper-tracking web
application (React frontend under `src/frontend`, plus page/context modules).
The definitions below are shallow embeddings of the TypeScript sources:
pure client logic becomes Lean functions, component state updates become
explicit state-passing step functions, and the HTTP backend handlers that are
not part of the shipped sources are modelled from the specification where a
claim depends on them (each such definition is marked `Modelled from the
spec:` in its doc comment).

JavaScript strings are modelled as lists of UTF-16 code units (`List Nat`);
machine numbers that stay small (stages 1..3, citation counts, page sizes)
are modelled as `Nat`.
-/

namespace Researcher

/-- `analysis_status` values other than `null`
(`src/frontend/src/api/paperApi.ts` line 37,
`SearchStageButtons.tsx` line 1). -/
inductive AnalysisStatus
  | simple_analyzing
  | deep_analyzing
  deriving DecidableEq, Repr

/-! ## SearchStageButtons (`src/frontend/src/components/SearchStageButtons.tsx`)

The component computes `isAnalyzing = !!analysisStatus` (line 18) and renders
two buttons whose `disabled` props are
`loading || isAnalyzing` (line 24) and
`loading || currentStage < 2 || isAnalyzing` (line 32). -/

/-- `isAnalyzing = !!analysisStatus` (SearchStageButtons.tsx line 18). -/
def isAnalyzing (analysisStatus : Option AnalysisStatus) : Bool :=
  analysisStatus.isSome

/-- `disabled` of the stage-2 ("초록 요약") button, SearchStageButtons.tsx line 24. -/
def simpleSearchDisabled (loading : Bool) (analysisStatus : Option AnalysisStatus) : Bool :=
  loading || isAnalyzing analysisStatus

/-- `disabled` of the stage-3 ("상세 분석") button, SearchStageButtons.tsx line 32. -/
def deepSearchDisabled (loading : Bool) (currentStage : Nat)
    (analysisStatus : Option AnalysisStatus) : Bool :=
  loading || decide (currentStage < 2) || isAnalyzing analysisStatus

/-! ## Client polling loop (`src/frontend/src/pages/PaperView.tsx` lines 13-63)

The `useEffect` keyed on `paper?.analysis_status` stores at most one interval
id in `pollingRef`; we model the ref's occupancy as a count of live intervals
so that "at most one interval" is a provable invariant rather than a typing
accident.  React guarantees that the previous effect's cleanup (lines 57-62)
runs before the effect body re-runs (lines 44-55), so the `effectRun` event
below performs the cleanup and then the body. -/

/-- The fields of the fetched paper that the polling callback inspects
(PaperView.tsx line 48). -/
structure FetchedPaper where
  analysis_status : Option AnalysisStatus
  deriving DecidableEq, Repr

/-- `const POLLING_INTERVAL = 3000` (PaperView.tsx line 14): milliseconds
between the interval callbacks scheduled at line 54. -/
def POLLING_INTERVAL : Nat := 3000

/-- Occupancy of `pollingRef` (PaperView.tsx line 22): how many live
`setInterval` handles the component currently holds. -/
structure PollerState where
  activeIntervals : Nat
  deriving DecidableEq, Repr

/-- Events acting on the polling machinery:
* `effectRun st` — the effect re-runs because `paper?.analysis_status`
  changed to `st` (cleanup of lines 57-62, then body of lines 44-55);
* `tick fetched` — one interval callback fired and `fetchPaper false`
  returned `fetched` (`none` models the catch branch returning `null`);
* `cleanup` — the component unmounts (navigation away), running only the
  cleanup of lines 57-62. -/
inductive PollerEvent
  | effectRun (status : Option AnalysisStatus)
  | tick (fetched : Option FetchedPaper)
  | cleanup
  deriving DecidableEq, Repr

/-- One step of the polling state machine, read off PaperView.tsx lines 42-63:
the effect body starts an interval iff the status flag is non-null; the
interval callback clears the interval iff the fetch succeeded and came back
with a null flag (lines 48-53); a failed fetch (`none`) leaves the interval
running; cleanup always clears. -/
def pollerStep (s : PollerState) : PollerEvent → PollerState
  | .effectRun st =>
      if st.isSome then { activeIntervals := 1 } else { activeIntervals := 0 }
  | .tick fetched =>
      if s.activeIntervals = 0 then s
      else
        match fetched with
        | some p => if p.analysis_status.isSome then s else { activeIntervals := 0 }
        | none => s
  | .cleanup => { activeIntervals := 0 }

/-- The poller state after a sequence of events, starting from the mounted
component (`pollingRef.current = null`, PaperView.tsx line 22). -/
def pollerRun (events : List PollerEvent) : PollerState :=
  events.foldl pollerStep { activeIntervals := 0 }

lemma pollerStep_le_one (s : PollerState) (ev : PollerEvent)
    (h : s.activeIntervals ≤ 1) : (pollerStep s ev).activeIntervals ≤ 1 := by
  cases ev with
  | effectRun st => by_cases hst : st.isSome <;> simp [pollerStep, hst]
  | tick fetched =>
      by_cases h0 : s.activeIntervals = 0
      · simpa [pollerStep, h0] using h
      · cases fetched with
        | none => simpa [pollerStep, h0] using h
        | some p =>
            by_cases hp : p.analysis_status.isSome <;>
              simp [pollerStep, h0, hp] <;> exact h
  | cleanup => simp [pollerStep]

lemma pollerRun_le_one (events : List PollerEvent) :
    (pollerRun events).activeIntervals ≤ 1 := by
  suffices h : ∀ s : PollerState, s.activeIntervals ≤ 1 →
      (events.foldl pollerStep s).activeIntervals ≤ 1 by
    exact h { activeIntervals := 0 } (by simp)
  induction events with
  | nil => intro s hs; simpa using hs
  | cons ev rest ih =>
      intro s hs
      exact ih (pollerStep s ev) (pollerStep_le_one s ev hs)

/-! ## Paper records (`src/frontend/src/api/paperApi.ts` lines 31-49) -/

/-- The `Paper` response shape of paperApi.ts lines 31-49. -/
structure PaperRec where
  id : Nat
  paper_id : String
  arxiv_date : Option String
  title : Option String
  search_stage : Nat
  analysis_status : Option AnalysisStatus
  is_favorite : Bool
  is_not_interested : Bool
  is_shared : Bool
  shared_by : Option String
  shared_at : Option String
  citation_count : Nat
  registered_by : Option String
  figure_url : Option String
  matched_keywords : Option (List String)
  created_at : String
  updated_at : String
  deriving DecidableEq, Repr

/-- Look a paper up by its external identifier (the store's dedup key,
spec §4.3). -/
def findPaper (store : List PaperRec) (pid : String) : Option PaperRec :=
  store.find? (fun p => p.paper_id == pid)

/-- The error taxonomy relevant to stage runs (spec §4.1 and §7). -/
inductive StageError
  | notFound
  | preconditionViolation
  | jobInFlight
  deriving DecidableEq, Repr

/-- Modelled from the spec: the backend handler behind
`POST /search/deep/{paperId}` (`deepSearch`, paperApi.ts lines 244-247) is not
among the shipped sources.  Spec §4.1: "`runStage3(paperId)`: preconditions —
paper exists, stage ≥2 (abstract summary already exists), no job in flight",
and §7: every failing operation "leaves state unchanged".  On acceptance the
handler marks the paper's async job as started (status flag
`deep_analyzing`); job completion is a separate transition that no claim here
needs. -/
def runStage3 (store : List PaperRec) (pid : String) :
    Except StageError Unit × List PaperRec :=
  match findPaper store pid with
  | none => (.error .notFound, store)
  | some p =>
      if p.search_stage < 2 then (.error .preconditionViolation, store)
      else if p.analysis_status.isSome then (.error .jobInFlight, store)
      else
        (.ok (),
          store.map fun q =>
            if q.paper_id == pid then
              { q with analysis_status := some .deep_analyzing }
            else q)

/-! ## Dashboard paper-list queries (`src/unnamed/part_002`, Dashboard page)

`fetchPapers` (part_002 lines 729-788) builds a `PaperFilters` object
(paperApi.ts lines 61-75) from the active tab, search keyword, sort state,
page, category filter and registrant filter. -/

/-- `TabType` (part_002 line 671). -/
inductive TabType
  | all
  | stage1
  | stage2
  | stage3
  | favorites
  | not_interested
  deriving DecidableEq, Repr

/-- `PaperFilters` (paperApi.ts lines 61-75); every field is optional. -/
structure PaperFilters where
  stage : Option Nat := none
  favorite : Option Bool := none
  not_interested : Option Bool := none
  hide_not_interested : Option Bool := none
  shared : Option Bool := none
  keyword : Option String := none
  matched_category : Option String := none
  no_category_match : Option Bool := none
  registered_by : Option String := none
  sort_by : Option String := none
  sort_order : Option String := none
  skip : Option Nat := none
  limit : Option Nat := none
  deriving DecidableEq, Repr

/-- `const PAGE_SIZE = 10` (part_002 line 673). -/
def PAGE_SIZE : Nat := 10

/-- Filter construction of `fetchPapers` (part_002 lines 733-777): the base
filters (keyword falls away when empty, line 734), the tab switch
(lines 741-765), the category filter (lines 767-772) and the registrant
filter (lines 774-777). -/
def dashboardFetchFilters (activeTab : TabType) (keyword : String)
    (sortBy sortOrder : String) (page : Nat)
    (categoryFilter registeredByFilter : String) : PaperFilters :=
  let base : PaperFilters :=
    { keyword := if keyword = "" then none else some keyword
      sort_by := some sortBy
      sort_order := some sortOrder
      skip := some ((page - 1) * PAGE_SIZE)
      limit := some PAGE_SIZE }
  let withTab :=
    match activeTab with
    | .stage1 => { base with stage := some 1, hide_not_interested := some true }
    | .stage2 => { base with stage := some 2, hide_not_interested := some true }
    | .stage3 => { base with stage := some 3, hide_not_interested := some true }
    | .favorites =>
        { base with favorite := some true, hide_not_interested := some false }
    | .not_interested =>
        { base with not_interested := some true, hide_not_interested := some false }
    | .all => { base with hide_not_interested := some true }
  let withCategory :=
    if categoryFilter = "__no_match__" then
      { withTab with no_category_match := some true }
    else if categoryFilter ≠ "" then
      { withTab with matched_category := some categoryFilter }
    else withTab
  if registeredByFilter ≠ "" then
    { withCategory with registered_by := some registeredByFilter }
  else withCategory

/-! ## Trending-papers keyword filter (`src/unnamed/part_002`, daily-papers page)

JavaScript strings are sequences of UTF-16 code units; we model them as
`List Nat`.  `toLowerCase` is modelled on the ASCII range (the only case
mapping the repository's keywords exercise), `trim` strips the ASCII
whitespace class, and `String.prototype.includes` is the contiguous-substring
scan. -/

/-- A JavaScript string: its list of UTF-16 code units. -/
abbrev JsStr := List Nat

/-- `toLowerCase` on a single code unit (ASCII range). -/
def lowerCode (c : Nat) : Nat := if 65 ≤ c ∧ c ≤ 90 then c + 32 else c

/-- `String.prototype.toLowerCase`. -/
def lowerStr (s : JsStr) : JsStr := s.map lowerCode

/-- The ASCII part of the whitespace class stripped by `String.prototype.trim`. -/
def isSpaceCode (c : Nat) : Bool :=
  c = 32 || c = 9 || c = 10 || c = 11 || c = 12 || c = 13

/-- `String.prototype.trim`. -/
def trimStr (s : JsStr) : JsStr :=
  ((s.dropWhile isSpaceCode).reverse.dropWhile isSpaceCode).reverse

/-- Whether `needle` is a leading block of `hay`. -/
def leadsB : JsStr → JsStr → Bool
  | [], _ => true
  | _ :: _, [] => false
  | a :: as, b :: bs => a == b && leadsB as bs

/-- `hay.includes(needle)`: `needle` occurs contiguously somewhere in `hay`. -/
def includesB : JsStr → JsStr → Bool
  | [], needle => needle.isEmpty
  | c :: t, needle => leadsB needle (c :: t) || includesB t needle

/-- The specification-level reading of "occurs as a contiguous substring". -/
def OccursIn (needle hay : JsStr) : Prop :=
  ∃ pre post, hay = pre ++ needle ++ post

/-- Fields the daily-papers page concatenates for matching
(paperApi.ts lines 78-91); only the ones the filter reads are kept plus the
numeric metadata that travels with them. -/
structure TrendingRec where
  paper_id : JsStr
  title : JsStr
  summary : JsStr
  upvotes : Nat
  ai_summary : Option JsStr
  ai_keywords : Option (List JsStr)
  published_at : JsStr
  num_comments : Nat
  deriving DecidableEq, Repr

/-- `searchText` built inside `filteredPapers` (part_002 lines 168-176):
`[title, summary, ai_summary, ...(ai_keywords || [])].filter(Boolean).join(' ')
  .toLowerCase()` — a missing `ai_summary` and empty strings are both dropped
by `filter(Boolean)`. -/
def searchTextOf (p : TrendingRec) : JsStr :=
  lowerStr (List.intercalate [32]
    (([p.title, p.summary] ++ p.ai_summary.toList ++ p.ai_keywords.getD []).filter
      (fun s => !s.isEmpty)))

/-- `filteredPapers` (part_002 lines 163-179): with filtering off or no
keywords, every paper passes; otherwise a paper is kept when some stored
keyword occurs in its lowercased search text. -/
def filteredPapers (filterEnabled : Bool) (filterKeywords : List JsStr)
    (papers : List TrendingRec) : List TrendingRec :=
  if !filterEnabled || filterKeywords.isEmpty then papers
  else
    papers.filter fun p =>
      filterKeywords.any fun k => includesB (searchTextOf p) k

/-- `addKeyword` (part_002 lines 127-135): the input is trimmed and
lowercased, and appended when non-empty and not already stored. -/
def addKeyword (filterKeywords : List JsStr) (newKeyword : JsStr) : List JsStr :=
  let trimmed := lowerStr (trimStr newKeyword)
  if !trimmed.isEmpty && !filterKeywords.contains trimmed then
    filterKeywords ++ [trimmed]
  else filterKeywords

lemma leadsB_iff (needle hay : JsStr) :
    leadsB needle hay = true ↔ ∃ post, hay = needle ++ post := by
  induction needle generalizing hay with
  | nil => simp [leadsB]
  | cons a as ih =>
      cases hay with
      | nil => simp [leadsB]
      | cons b bs =>
          simp only [leadsB, Bool.and_eq_true, beq_iff_eq, ih]
          constructor
          · rintro ⟨rfl, post, rfl⟩
            exact ⟨post, rfl⟩
          · rintro ⟨post, h⟩
            cases h
            exact ⟨rfl, post, rfl⟩

lemma includesB_iff (hay needle : JsStr) :
    includesB hay needle = true ↔ OccursIn needle hay := by
  induction hay with
  | nil =>
      simp only [includesB, OccursIn, List.isEmpty_iff]
      constructor
      · rintro rfl
        exact ⟨[], [], rfl⟩
      · rintro ⟨pre, post, h⟩
        rcases List.append_eq_nil.mp h.symm with ⟨h1, h2⟩
        exact (List.append_eq_nil.mp h1).2
  | cons c t ih =>
      simp only [includesB, Bool.or_eq_true, leadsB_iff, ih, OccursIn]
      constructor
      · rintro (⟨post, h⟩ | ⟨pre, post, h⟩)
        · exact ⟨[], post, by simpa using h⟩
        · exact ⟨c :: pre, post, by simp [h]⟩
      · rintro ⟨pre, post, h⟩
        cases pre with
        | nil => exact Or.inl ⟨post, by simpa using h⟩
        | cons x xs =>
            right
            refine ⟨xs, post, ?_⟩
            have := (List.cons_eq_cons.mp h).2
            simpa using this

lemma lowerCode_idem (c : Nat) : lowerCode (lowerCode c) = lowerCode c := by
  unfold lowerCode
  split_ifs with h1 h2 <;> omega

lemma lowerStr_idem (s : JsStr) : lowerStr (lowerStr s) = lowerStr s := by
  simp [lowerStr, Function.comp_def, lowerCode_idem]

/-- Case-insensitive reading of the match: for a stored (already lowercase)
keyword, occurring in the lowercased text is the same as some substring of
the raw text agreeing with the keyword up to case. -/
lemma occurs_lower_iff (k t : JsStr) (hk : lowerStr k = k) :
    OccursIn k (lowerStr t) ↔ ∃ s, OccursIn s t ∧ lowerStr s = k := by
  constructor
  · rintro ⟨pre, post, h⟩
    rcases List.append_eq_map_iff.mp h.symm with ⟨t₁₂, t₃, rfl, hpre, hpost⟩
    rcases List.append_eq_map_iff.mp hpre.symm with ⟨t₁, t₂, rfl, hp, hk2⟩
    exact ⟨t₂, ⟨t₁, t₃, rfl⟩, hk2⟩
  · rintro ⟨s, ⟨pre, post, rfl⟩, hs⟩
    exact ⟨lowerStr pre, lowerStr post, by simp [lowerStr, ← hs]⟩

/-! ## Preview-then-commit registration (`src/frontend/src/api/paperApi.ts`)

`previewCitingPapers` (lines 200-203) and `searchByTopic` (lines 194-197)
issue plain `api.get` calls; `registerBulk` (lines 229-235) is the separate
`api.post` that carries the write payload. -/

/-- HTTP methods used by paperApi.ts. -/
inductive HttpMethod
  | get
  | post
  | patch
  | delete
  deriving DecidableEq, Repr

/-- `BulkPaperInfo` (paperApi.ts lines 224-227). -/
structure BulkPaperInfo where
  paper_id : String
  citation_count : Nat
  deriving DecidableEq, Repr

/-- Write payloads relevant to the claims. -/
inductive RequestBody
  | bulkRegister (papers : List BulkPaperInfo) (registered_by : Option String)
  deriving DecidableEq, Repr

/-- The transport-level shape of one client call. -/
structure ApiRequest where
  method : HttpMethod
  path : String
  body : Option RequestBody
  deriving DecidableEq, Repr

/-- `previewCitingPapers` (paperApi.ts lines 200-203): `api.get` on
`/citations-preview` with query params only. -/
def previewCitingPapersRequest : ApiRequest :=
  { method := .get, path := "/citations-preview", body := none }

/-- `searchByTopic` (paperApi.ts lines 194-197): `api.get` on `/topic-search`
with query params only. -/
def searchByTopicRequest : ApiRequest :=
  { method := .get, path := "/topic-search", body := none }

/-- `registerBulk` (paperApi.ts lines 229-235): `api.post` on
`/register/bulk` carrying the selected papers. -/
def registerBulkRequest (papers : List BulkPaperInfo)
    (registeredBy : Option String) : ApiRequest :=
  { method := .post, path := "/register/bulk",
    body := some (.bulkRegister papers registeredBy) }

/-- `SearchResultPaper` (paperApi.ts lines 151-159). -/
structure SearchResultPaper where
  paper_id : String
  title : Option String
  authors : List String
  year : Option Nat
  citation_count : Nat
  abstract : Option String
  already_registered : Bool
  deriving DecidableEq, Repr

/-- Raw candidate metadata as delivered by the external provider, before the
store marks it. -/
structure ProviderCandidate where
  paper_id : String
  title : Option String
  authors : List String
  year : Option Nat
  citation_count : Nat
  abstract : Option String
  deriving DecidableEq, Repr

/-- Modelled from the spec: the backend handlers behind
`GET /citations-preview` and `GET /topic-search` are not among the shipped
sources.  Spec §4.3: the search "marks candidates already present in the
store, and returns the list for user selection before any write occurs
(preview-then-commit pattern — no implicit writes from a search)". -/
def previewOp (candidates : List ProviderCandidate) (store : List PaperRec) :
    List SearchResultPaper × List PaperRec :=
  (candidates.map fun c =>
      { paper_id := c.paper_id
        title := c.title
        authors := c.authors
        year := c.year
        citation_count := c.citation_count
        abstract := c.abstract
        already_registered := (findPaper store c.paper_id).isSome },
    store)

lemma findPaper_isSome_iff (store : List PaperRec) (pid : String) :
    (findPaper store pid).isSome = true ↔ ∃ p ∈ store, p.paper_id = pid := by
  simp [findPaper, List.find?_isSome]

/-! ## Bulk registration (spec §4.3)

The backend handler behind `POST /register/bulk` is not among the shipped
sources; it is modelled from spec §4.3 below and the response shape
`BulkRegisterResponse` of paperApi.ts lines 186-191. -/

/-- The `BulkRegisterResponse` lists (paperApi.ts lines 186-191): registered
rows, skipped identifiers, and per-item failures with a reason string. -/
structure BulkOutcome where
  registered : List PaperRec
  skipped : List String
  failed : List (String × String)
  deriving DecidableEq, Repr

/-- Modelled from the spec: the fresh stage-1 row created for a
bulk-registered candidate (spec §4.3, §8: a registered paper starts at
stage 1 with its submitted citation count). -/
def mkBulkPaper (item : BulkPaperInfo) (registeredBy : Option String) : PaperRec :=
  { id := 0
    paper_id := item.paper_id
    arxiv_date := none
    title := none
    search_stage := 1
    analysis_status := none
    is_favorite := false
    is_not_interested := false
    is_shared := false
    shared_by := none
    shared_at := none
    citation_count := item.citation_count
    registered_by := registeredBy
    figure_url := none
    matched_keywords := none
    created_at := ""
    updated_at := "" }

/-- Modelled from the spec: the backend handler behind `POST /register/bulk`.
Spec §4.3: "Bulk commit accepts an explicit list of (id, citation-count)
pairs; for each, inserts if absent, otherwise records it as skipped. ...
each candidate is attempted independently; a per-item failure (e.g., metadata
fetch error) is recorded in a failure list with a reason string and does not
abort the remaining batch."  `fetchErr pid = some r` models the metadata
fetch for `pid` failing with reason `r`. -/
def bulkRegisterOp (fetchErr : String → Option String)
    (registeredBy : Option String) :
    List PaperRec → List BulkPaperInfo → BulkOutcome × List PaperRec
  | store, [] => ({ registered := [], skipped := [], failed := [] }, store)
  | store, item :: rest =>
      if (findPaper store item.paper_id).isSome then
        let out := bulkRegisterOp fetchErr registeredBy store rest
        ({ out.1 with skipped := item.paper_id :: out.1.skipped }, out.2)
      else
        match fetchErr item.paper_id with
        | some r =>
            let out := bulkRegisterOp fetchErr registeredBy store rest
            ({ out.1 with failed := (item.paper_id, r) :: out.1.failed }, out.2)
        | none =>
            let out := bulkRegisterOp fetchErr registeredBy
              (store ++ [mkBulkPaper item registeredBy]) rest
            ({ out.1 with
                registered := mkBulkPaper item registeredBy :: out.1.registered },
              out.2)

lemma countP_add_countP_not (p : BulkPaperInfo → Bool) (l : List BulkPaperInfo) :
    l.countP p + l.countP (fun a => !p a) = l.length := by
  induction l with
  | nil => simp
  | cons a t ih => by_cases h : p a = true <;> simp [List.countP_cons, h] <;> omega

lemma findPaper_append_single (store : List PaperRec) (q : PaperRec) (pid : String) :
    (findPaper (store ++ [q]) pid).isSome
      = ((findPaper store pid).isSome || (q.paper_id == pid)) := by
  by_cases h : (findPaper store pid).isSome = true
  · rcases (findPaper_isSome_iff store pid).mp h with ⟨p, hp, hpid⟩
    have : (findPaper (store ++ [q]) pid).isSome = true :=
      (findPaper_isSome_iff _ pid).mpr ⟨p, List.mem_append_left _ hp, hpid⟩
    simp [this, h]
  · by_cases hq : q.paper_id = pid
    · have : (findPaper (store ++ [q]) pid).isSome = true :=
        (findPaper_isSome_iff _ pid).mpr ⟨q, List.mem_append_right _ (by simp), hq⟩
      simp [this, hq]
    · have : ¬ (findPaper (store ++ [q]) pid).isSome = true := by
        intro hx
        rcases (findPaper_isSome_iff _ pid).mp hx with ⟨p, hp, hpid⟩
        rcases List.mem_append.mp hp with hp | hp
        · exact h ((findPaper_isSome_iff store pid).mpr ⟨p, hp, hpid⟩)
        · have : p = q := by simpa using hp
          exact hq (this ▸ hpid)
      simp only [Bool.eq_false_iff] at h this ⊢
      simp [this, h, hq]

/-- The core accounting of the bulk operation: with pairwise-distinct input
identifiers and no fetch failures, the counts of new rows and of skip entries
are the counts of absent and of present identifiers, and the final store is
the old store followed by one fresh row per absent identifier, in input
order. -/
lemma bulkRegisterOp_counts (fetchErr : String → Option String)
    (registeredBy : Option String) (items : List BulkPaperInfo) :
    ∀ store : List PaperRec,
      (items.map (fun i => i.paper_id)).Nodup →
      (∀ i ∈ items, fetchErr i.paper_id = none) →
      (bulkRegisterOp fetchErr registeredBy store items).1.registered.length
          = items.countP (fun i => !(findPaper store i.paper_id).isSome)
        ∧ (bulkRegisterOp fetchErr registeredBy store items).1.skipped.length
          = items.countP (fun i => (findPaper store i.paper_id).isSome)
        ∧ (bulkRegisterOp fetchErr registeredBy store items).2
          = store ++ (items.filter
                (fun i => !(findPaper store i.paper_id).isSome)).map
              (fun i => mkBulkPaper i registeredBy) := by
  induction items with
  | nil => intro store _ _; simp [bulkRegisterOp]
  | cons item rest ih =>
      intro store hnd hok
      have hndr : (rest.map (fun i => i.paper_id)).Nodup := by
        simpa using hnd.of_cons
      have hitem : item.paper_id ∉ rest.map (fun i => i.paper_id) := by
        have := hnd
        simp only [List.map_cons, List.nodup_cons] at this
        exact this.1
      have hokr : ∀ i ∈ rest, fetchErr i.paper_id = none := fun i hi =>
        hok i (List.mem_cons_of_mem _ hi)
      by_cases hpres : (findPaper store item.paper_id).isSome = true
      · have hstep : bulkRegisterOp fetchErr registeredBy store (item :: rest)
            = (let out := bulkRegisterOp fetchErr registeredBy store rest
               ({ out.1 with skipped := item.paper_id :: out.1.skipped }, out.2)) := by
          simp [bulkRegisterOp, hpres]
        have hnn : findPaper store item.paper_id ≠ none :=
          Option.isSome_iff_ne_none.mp hpres
        rcases ih store hndr hokr with ⟨h1, h2, h3⟩
        refine ⟨?_, ?_, ?_⟩ <;>
          simp [hstep, h1, h2, h3, List.countP_cons, List.filter_cons, hpres, hnn]
      · have hfetch : fetchErr item.paper_id = none := hok item (by simp)
        have hstep : bulkRegisterOp fetchErr registeredBy store (item :: rest)
            = (let out := bulkRegisterOp fetchErr registeredBy
                  (store ++ [mkBulkPaper item registeredBy]) rest
               ({ out.1 with
                    registered := mkBulkPaper item registeredBy :: out.1.registered },
                 out.2)) := by
          simp [bulkRegisterOp, hpres, hfetch]
        have hstore' := ih (store ++ [mkBulkPaper item registeredBy]) hndr hokr
        -- on the remaining (distinct) identifiers, presence in the grown store
        -- agrees with presence in the original store
        have hagree : ∀ i ∈ rest,
            (findPaper (store ++ [mkBulkPaper item registeredBy]) i.paper_id).isSome
              = (findPaper store i.paper_id).isSome := by
          intro i hi
          have hne : item.paper_id ≠ i.paper_id := by
            intro hcontra
            exact hitem (hcontra ▸ List.mem_map_of_mem (fun i => i.paper_id) hi)
          rw [findPaper_append_single]
          simp [mkBulkPaper, hne]
        rcases hstore' with ⟨h1, h2, h3⟩
        have hcount1 :
            rest.countP
                (fun i => !(findPaper (store ++ [mkBulkPaper item registeredBy])
                    i.paper_id).isSome)
              = rest.countP (fun i => !(findPaper store i.paper_id).isSome) :=
          List.countP_congr (fun i hi => by simp [hagree i hi])
        have hcount2 :
            rest.countP
                (fun i => (findPaper (store ++ [mkBulkPaper item registeredBy])
                    i.paper_id).isSome)
              = rest.countP (fun i => (findPaper store i.paper_id).isSome) :=
          List.countP_congr (fun i hi => by simp [hagree i hi])
        have hfilter :
            rest.filter
                (fun i => !(findPaper (store ++ [mkBulkPaper item registeredBy])
                    i.paper_id).isSome)
              = rest.filter (fun i => !(findPaper store i.paper_id).isSome) :=
          List.filter_congr' (fun i hi => by simp [hagree i hi])
        refine ⟨?_, ?_, ?_⟩
        · rw [hstep]
          simp only [List.length_cons]
          rw [h1, hcount1, List.countP_cons]
          simp [hpres]
        · rw [hstep]
          simp only
          rw [h2, hcount2, List.countP_cons]
          simp [hpres]
        · rw [hstep]
          simp only
          rw [h3, hfilter, List.filter_cons]
          simp [hpres, List.append_assoc]

/-- Every input item lands in exactly one of the three outcome lists: the
batch is never aborted early. -/
lemma bulkRegisterOp_total (fetchErr : String → Option String)
    (registeredBy : Option String) (items : List BulkPaperInfo) :
    ∀ store : List PaperRec,
      (bulkRegisterOp fetchErr registeredBy store items).1.registered.length
        + (bulkRegisterOp fetchErr registeredBy store items).1.skipped.length
        + (bulkRegisterOp fetchErr registeredBy store items).1.failed.length
        = items.length := by
  induction items with
  | nil => intro store; simp [bulkRegisterOp]
  | cons item rest ih =>
      intro store
      by_cases hpres : (findPaper store item.paper_id).isSome = true
      · have := ih store
        simp [bulkRegisterOp, hpres]
        omega
      · cases hf : fetchErr item.paper_id with
        | some r =>
            have := ih store
            simp [bulkRegisterOp, hpres, hf]
            omega
        | none =>
            have := ih (store ++ [mkBulkPaper item registeredBy])
            simp [bulkRegisterOp, hpres, hf]
            omega

/-! ## Favorite toggling (`paperApi.ts` lines 250-253, Dashboard part_002
lines 822-832, PaperView.tsx lines 97-106) -/

/-- Modelled from the spec: the backend handler behind
`PATCH /papers/{id}/favorite` (`toggleFavorite`, paperApi.ts lines 250-253)
is not among the shipped sources.  Spec §6 lists "toggle favorite" and §8
states "Toggle favorite twice → favorite flag returns to original value":
the handler flips the stored flag of the addressed paper and returns the
updated record. -/
def serverToggleFavorite (store : List PaperRec) (pid : String) :
    Option PaperRec × List PaperRec :=
  match findPaper store pid with
  | none => (none, store)
  | some p =>
      (some { p with is_favorite := !p.is_favorite },
        store.map fun q =>
          if q.paper_id == pid then { q with is_favorite := !p.is_favorite }
          else q)

/-- The Dashboard's local update (part_002 lines 826-828): copy the returned
`is_favorite` onto the one matching paper, leaving every other field and
paper alone. -/
def applyFavoriteUpdate (papers : List PaperRec) (pid : String) (fav : Bool) :
    List PaperRec :=
  papers.map fun p =>
    if p.paper_id == pid then { p with is_favorite := fav } else p

/-- `handleToggleFavorite` (part_002 lines 822-832): call the server, then
apply only the returned flag locally; on failure the list is left as is. -/
def handleToggleFavorite (papers : List PaperRec) (pid : String) : List PaperRec :=
  match (serverToggleFavorite papers pid).1 with
  | some updated => applyFavoriteUpdate papers pid updated.is_favorite
  | none => papers

lemma handleToggleFavorite_found (papers : List PaperRec) (pid : String)
    (p₀ : PaperRec) (hfind : findPaper papers pid = some p₀) :
    handleToggleFavorite papers pid
      = papers.map fun q =>
          if q.paper_id == pid then { q with is_favorite := !p₀.is_favorite }
          else q := by
  simp [handleToggleFavorite, serverToggleFavorite, applyFavoriteUpdate, hfind]

lemma handleToggleFavorite_not_found (papers : List PaperRec) (pid : String)
    (hfind : findPaper papers pid = none) :
    handleToggleFavorite papers pid = papers := by
  simp [handleToggleFavorite, serverToggleFavorite, hfind]

lemma findPaper_unique (papers : List PaperRec) (pid : String) (p₀ : PaperRec)
    (hnd : (papers.map fun p => p.paper_id).Nodup)
    (hfind : findPaper papers pid = some p₀)
    (q : PaperRec) (hq : q ∈ papers) (hqid : q.paper_id = pid) : q = p₀ := by
  have hp₀mem : p₀ ∈ papers := List.mem_of_find?_eq_some hfind
  have hp₀id : p₀.paper_id = pid := by
    have := List.find?_some hfind
    simpa using this
  exact List.inj_on_of_nodup_map hnd hq hp₀mem (by rw [hqid, hp₀id])

lemma findPaper_map_toggle (papers : List PaperRec) (pid : String) (b : Bool)
    (p₀ : PaperRec) (hfind : findPaper papers pid = some p₀) :
    findPaper
        (papers.map fun q =>
          if q.paper_id == pid then { q with is_favorite := b } else q) pid
      = some { p₀ with is_favorite := b } := by
  unfold findPaper at hfind ⊢
  rw [List.find?_map]
  have hcong :
      (fun p : PaperRec => p.paper_id == pid)
          ∘ (fun q : PaperRec =>
            if q.paper_id == pid then { q with is_favorite := b } else q)
        = fun p : PaperRec => p.paper_id == pid := by
    funext q
    by_cases h : q.paper_id == pid <;> simp [Function.comp, h]
  rw [hcong, hfind]
  have hp₀id : p₀.paper_id = pid := by
    have := List.find?_some hfind
    simpa using this
  simp [hp₀id]

/-! ## User-session login (`src/unnamed/part_001` lines 53-75) -/

/-- `UserSession` (part_001 lines 6-9). -/
structure UserSession where
  username : String
  loginTime : String
  deriving DecidableEq, Repr

/-- `LoginResponse` (accessApi.ts lines 21-25). -/
structure LoginResponse where
  status : String
  login_time : String
  username : String
  deriving DecidableEq, Repr

/-- The provider's session state paired with its `localStorage` mirror
(part_001 lines 34-40, 63-64, 72-73). -/
structure SessionState where
  session : Option UserSession
  localStorageSession : Option UserSession
  deriving DecidableEq, Repr

/-- `login` (part_001 lines 53-75).  The outcome of the backend
`logLogin` call is a parameter: `.ok r` is the resolved response, `.error e`
any rejection; `now` models `new Date().toISOString()`.  Both branches set
and persist a session, so the function is total — the promise never
rejects. -/
def login (logLoginResult : Except String LoginResponse) (now : String)
    (st : SessionState) (username : String) : SessionState :=
  match st, logLoginResult with
  | _, .ok r =>
      let s : UserSession := { username := r.username, loginTime := r.login_time }
      { session := some s, localStorageSession := some s }
  | _, .error _ =>
      let s : UserSession := { username := username, loginTime := now }
      { session := some s, localStorageSession := some s }

/-! ## Topic-search selection modal
(`src/frontend/src/components/TopicSearchModal.tsx`) -/

/-- `registrablePapers` (TopicSearchModal.tsx lines 22-25): candidates not
already registered. -/
def registrablePapers (searchResults : List SearchResultPaper) :
    List SearchResultPaper :=
  searchResults.filter fun p => !p.already_registered

/-- The identifiers of the registrable candidates (line 29). -/
def registrableIds (searchResults : List SearchResultPaper) : List String :=
  (registrablePapers searchResults).map fun p => p.paper_id

/-- The per-row checkbox `disabled` prop (TopicSearchModal.tsx line 101). -/
def rowCheckboxDisabled (p : SearchResultPaper) : Bool :=
  p.already_registered

/-- Selection-changing events of the modal: the header checkbox
(`handleSelectAll`, lines 27-33), a row checkbox (`handleSelectOne`,
lines 35-42; it can only fire on an enabled checkbox of a rendered row), the
register button completing (`handleRegister`, lines 44-48; both parent
handlers catch their own errors, so the `await` resolves and the clear
runs), and closing the modal (`handleClose`, lines 50-53). -/
inductive ModalEvent
  | selectAll (checked : Bool)
  | selectOne (pid : String) (checked : Bool)
  | registerDone
  | closeModal
  deriving DecidableEq, Repr

/-- The `setSelectedIds` transition for each event, from the handlers cited
above. -/
def modalStep (searchResults : List SearchResultPaper)
    (selected : Finset String) : ModalEvent → Finset String
  | .selectAll true => (registrableIds searchResults).toFinset
  | .selectAll false => ∅
  | .selectOne pid true => insert pid selected
  | .selectOne pid false => selected.erase pid
  | .registerDone => ∅
  | .closeModal => ∅

/-- Which events the rendered UI can emit: a row checkbox change only comes
from a row whose checkbox is enabled, i.e. a registrable candidate
(TopicSearchModal.tsx lines 91-102). -/
def eventFireable (searchResults : List SearchResultPaper) : ModalEvent → Prop
  | .selectOne pid _ => pid ∈ registrableIds searchResults
  | _ => True

/-- The selection after a sequence of events, starting from the initial empty
selection (TopicSearchModal.tsx line 19). -/
def modalRun (searchResults : List SearchResultPaper)
    (events : List ModalEvent) : Finset String :=
  events.foldl (modalStep searchResults) ∅

lemma modalStep_subset (searchResults : List SearchResultPaper)
    (selected : Finset String) (ev : ModalEvent)
    (hsel : ∀ x ∈ selected, x ∈ registrableIds searchResults)
    (hev : eventFireable searchResults ev) :
    ∀ x ∈ modalStep searchResults selected ev,
      x ∈ registrableIds searchResults := by
  cases ev with
  | selectAll checked =>
      cases checked with
      | true => intro x hx; simpa [modalStep] using hx
      | false => intro x hx; simp [modalStep] at hx
  | selectOne pid checked =>
      cases checked with
      | true =>
          intro x hx
          rcases Finset.mem_insert.mp hx with rfl | hx
          · exact hev
          · exact hsel x hx
      | false =>
          intro x hx
          exact hsel x (Finset.mem_of_mem_erase hx)
  | registerDone => intro x hx; simp [modalStep] at hx
  | closeModal => intro x hx; simp [modalStep] at hx

lemma modalRun_subset (searchResults : List SearchResultPaper)
    (events : List ModalEvent)
    (hev : ∀ ev ∈ events, eventFireable searchResults ev) :
    ∀ x ∈ modalRun searchResults events, x ∈ registrableIds searchResults := by
  suffices h : ∀ selected : Finset String,
      (∀ x ∈ selected, x ∈ registrableIds searchResults) →
      ∀ x ∈ events.foldl (modalStep searchResults) selected,
        x ∈ registrableIds searchResults by
    exact h ∅ (by simp)
  induction events with
  | nil => intro s hs; simpa using hs
  | cons ev rest ih =>
      intro s hs
      exact ih (fun e he => hev e (List.mem_cons_of_mem _ he))
        (modalStep searchResults s ev)
        (modalStep_subset searchResults s ev hs (hev ev (by simp)))

/-! ## Claim theorems C1-C3 -/

/-- C1: while a viewed paper's fetched analysis-status flag is non-null the
client polls its state every `POLLING_INTERVAL = 3000` milliseconds; a fetch
that returns a null flag stops the interval and no tick ever restarts one; at
most one interval is live at any reachable state; and both the effect cleanup
(status change) and the unmount cleanup (navigation away) cancel the
interval. -/
theorem polling_loop_contract :
    POLLING_INTERVAL = 3000
    ∧ (∀ events : List PollerEvent, (pollerRun events).activeIntervals ≤ 1)
    ∧ (∀ (s : PollerState) (st : Option AnalysisStatus), st.isSome →
        (pollerStep s (.effectRun st)).activeIntervals = 1)
    ∧ (∀ (s : PollerState) (p : FetchedPaper), p.analysis_status = none →
        (pollerStep s (.tick (some p))).activeIntervals = 0)
    ∧ (∀ (s : PollerState) (fetched : Option FetchedPaper),
        s.activeIntervals = 0 →
        (pollerStep s (.tick fetched)).activeIntervals = 0)
    ∧ (∀ s : PollerState, (pollerStep s .cleanup).activeIntervals = 0)
    ∧ (∀ s : PollerState,
        (pollerStep s (.effectRun none)).activeIntervals = 0) := by
  refine ⟨rfl, pollerRun_le_one, ?_, ?_, ?_, ?_, ?_⟩
  · intro s st hst
    simp [pollerStep, hst]
  · intro s p hp
    by_cases h0 : s.activeIntervals = 0 <;> simp [pollerStep, h0, hp]
  · intro s fetched h0
    simp [pollerStep, h0]
  · intro s
    simp [pollerStep]
  · intro s
    simp [pollerStep]

theorem polling_loop_contract_witness :
    (pollerStep { activeIntervals := 0 }
        (.effectRun (some .simple_analyzing))).activeIntervals = 1
    ∧ (pollerStep { activeIntervals := 1 }
        (.tick (some { analysis_status := none }))).activeIntervals = 0 :=
  ⟨polling_loop_contract.2.2.1 { activeIntervals := 0 }
      (some .simple_analyzing) rfl,
    polling_loop_contract.2.2.2.1 { activeIntervals := 1 }
      { analysis_status := none } rfl⟩

/-- C2: the spec-modelled stage-3 run rejects a paper below stage 2 with a
precondition error and leaves the store unchanged, and the client's
deep-search button is disabled exactly when the stage is below 2 or a load /
analysis job is in flight, so in particular a stage-1 paper can never issue
the request. -/
theorem stage3_requires_stage2 :
    (∀ (store : List PaperRec) (pid : String) (p : PaperRec),
        findPaper store pid = some p → p.search_stage < 2 →
        runStage3 store pid = (.error .preconditionViolation, store))
    ∧ (∀ (loading : Bool) (currentStage : Nat) (a : Option AnalysisStatus),
        deepSearchDisabled loading currentStage a = true ↔
          (loading = true ∨ currentStage < 2 ∨ a.isSome = true))
    ∧ (∀ (loading : Bool) (a : Option AnalysisStatus) (currentStage : Nat),
        currentStage < 2 → deepSearchDisabled loading currentStage a = true) := by
  refine ⟨?_, ?_, ?_⟩
  · intro store pid p hfind hlt
    simp [runStage3, hfind, hlt]
  · intro loading currentStage a
    simp [deepSearchDisabled, isAnalyzing, Bool.or_eq_true, decide_eq_true_iff,
      or_assoc]
  · intro loading a currentStage hlt
    simp [deepSearchDisabled, isAnalyzing, hlt]

/-- A concrete stage-1 paper used to instantiate witnesses. -/
def stage1Paper : PaperRec :=
  { id := 1
    paper_id := "2306.02437"
    arxiv_date := some "2023-06-05"
    title := some "Example"
    search_stage := 1
    analysis_status := none
    is_favorite := false
    is_not_interested := false
    is_shared := false
    shared_by := none
    shared_at := none
    citation_count := 0
    registered_by := none
    figure_url := none
    matched_keywords := none
    created_at := "2023-06-05"
    updated_at := "2023-06-05" }

theorem stage3_requires_stage2_witness :
    runStage3 [stage1Paper] "2306.02437" = (.error .preconditionViolation, [stage1Paper])
    ∧ deepSearchDisabled false 1 none = true :=
  ⟨stage3_requires_stage2.1 [stage1Paper] "2306.02437" stage1Paper (by decide)
      (by decide),
    stage3_requires_stage2.2.2 false none 1 (by decide)⟩

/-- C3: the analysis-status flag is either null or exactly one of the two
running values (which are distinct), and whenever it is non-null both stage
buttons are disabled, so neither stage-run operation can be started while a
job is in flight. -/
theorem analysis_status_mutual_exclusion :
    (∀ st : Option AnalysisStatus,
        st = none ∨ st = some .simple_analyzing ∨ st = some .deep_analyzing)
    ∧ AnalysisStatus.simple_analyzing ≠ AnalysisStatus.deep_analyzing
    ∧ (∀ (loading : Bool) (currentStage : Nat) (a : Option AnalysisStatus),
        a.isSome = true →
        simpleSearchDisabled loading a = true
          ∧ deepSearchDisabled loading currentStage a = true) := by
  refine ⟨?_, by decide, ?_⟩
  · intro st
    rcases st with _ | v
    · exact Or.inl rfl
    · cases v
      · exact Or.inr (Or.inl rfl)
      · exact Or.inr (Or.inr rfl)
  · intro loading currentStage a ha
    constructor <;> simp [simpleSearchDisabled, deepSearchDisabled, isAnalyzing, ha]

theorem analysis_status_mutual_exclusion_witness :
    simpleSearchDisabled false (some .deep_analyzing) = true
    ∧ deepSearchDisabled false 3 (some .deep_analyzing) = true :=
  analysis_status_mutual_exclusion.2.2 false 3 (some .deep_analyzing) rfl

/-- C4: every paper-list query the dashboard builds for the default tab and
the per-stage tabs sets `hide_not_interested` to `true`, and the only tabs
that include hidden papers — `favorites` and `not_interested` — set it to
`false`, whatever the keyword, sort, page, category and registrant inputs
are. -/
theorem default_views_hide_not_interested :
    ∀ (tab : TabType) (keyword sortBy sortOrder : String) (page : Nat)
      (categoryFilter registeredByFilter : String),
      ((tab = .all ∨ tab = .stage1 ∨ tab = .stage2 ∨ tab = .stage3) →
        (dashboardFetchFilters tab keyword sortBy sortOrder page
            categoryFilter registeredByFilter).hide_not_interested = some true)
      ∧ ((tab = .favorites ∨ tab = .not_interested) →
        (dashboardFetchFilters tab keyword sortBy sortOrder page
            categoryFilter registeredByFilter).hide_not_interested = some false) := by
  intro tab keyword sortBy sortOrder page categoryFilter registeredByFilter
  constructor
  · rintro (rfl | rfl | rfl | rfl) <;>
      · simp only [dashboardFetchFilters]
        split_ifs <;> rfl
  · rintro (rfl | rfl) <;>
      · simp only [dashboardFetchFilters]
        split_ifs <;> rfl

/-- C5: keyword matching is case-insensitive literal substring matching and
nothing more.  With filtering enabled and a non-empty keyword set, a trending
paper is kept exactly when some stored keyword occurs contiguously in the
lowercased concatenation of its title, summaries and AI keywords; stored
keywords are lowercased on entry; and for lowercase keywords, matching
against the lowercased text coincides with case-insensitive occurrence in the
raw text — the iff leaves no room for stemming or fuzzy matching. -/
theorem keyword_matching_substring :
    (∀ (filterKeywords : List JsStr) (papers : List TrendingRec) (p : TrendingRec),
        filterKeywords ≠ [] →
        (p ∈ filteredPapers true filterKeywords papers ↔
          p ∈ papers ∧ ∃ k ∈ filterKeywords, OccursIn k (searchTextOf p)))
    ∧ (∀ (filterKeywords : List JsStr) (s : JsStr),
        (∀ x ∈ filterKeywords, lowerStr x = x) →
        ∀ x ∈ addKeyword filterKeywords s, lowerStr x = x)
    ∧ (∀ k t : JsStr, lowerStr k = k →
        (OccursIn k (lowerStr t) ↔ ∃ s, OccursIn s t ∧ lowerStr s = k)) := by
  refine ⟨?_, ?_, occurs_lower_iff⟩
  · intro filterKeywords papers p hne
    have hempty : filterKeywords.isEmpty = false := by
      simpa [List.isEmpty_iff] using hne
    have hfe : filteredPapers true filterKeywords papers
        = papers.filter fun p =>
            filterKeywords.any fun k => includesB (searchTextOf p) k := by
      simp [filteredPapers, hempty]
    rw [hfe, List.mem_filter]
    simp only [List.any_eq_true]
    constructor
    · rintro ⟨hp, k, hk, hocc⟩
      exact ⟨hp, k, hk, (includesB_iff _ _).mp hocc⟩
    · rintro ⟨hp, k, hk, hocc⟩
      exact ⟨hp, k, hk, (includesB_iff _ _).mpr hocc⟩
  · intro filterKeywords s hall x hx
    unfold addKeyword at hx
    by_cases hcond :
        (!(lowerStr (trimStr s)).isEmpty
          && !filterKeywords.contains (lowerStr (trimStr s))) = true
    · rw [if_pos hcond] at hx
      rcases List.mem_append.mp hx with hx | hx
      · exact hall x hx
      · have : x = lowerStr (trimStr s) := by simpa using hx
        subst this
        exact lowerStr_idem _
    · rw [if_neg hcond] at hx
      exact hall x hx

/-- A concrete trending paper whose title is the single letter "A". -/
def sampleTrending : TrendingRec :=
  { paper_id := [50]
    title := [65]
    summary := []
    upvotes := 3
    ai_summary := none
    ai_keywords := none
    published_at := []
    num_comments := 0 }

theorem keyword_matching_substring_witness :
    sampleTrending ∈ filteredPapers true [[97]] [sampleTrending] :=
  (keyword_matching_substring.1 [[97]] [sampleTrending] sampleTrending
      (by decide)).mpr
    ⟨by simp, [97], by simp, [], [], by decide⟩

/-- C6: previewing citation candidates and topic search are pure reads.  Both
client calls are plain GET requests with no write payload; the spec-modelled
preview returns the candidate list with the already-registered marking and
leaves the store untouched; the only write is the separate explicit bulk
POST. -/
theorem preview_is_pure_read :
    previewCitingPapersRequest.method = .get
    ∧ previewCitingPapersRequest.body = none
    ∧ searchByTopicRequest.method = .get
    ∧ searchByTopicRequest.body = none
    ∧ (∀ (candidates : List ProviderCandidate) (store : List PaperRec),
        (previewOp candidates store).2 = store)
    ∧ (∀ (candidates : List ProviderCandidate) (store : List PaperRec)
        (r : SearchResultPaper), r ∈ (previewOp candidates store).1 →
        (r.already_registered = true ↔ ∃ p ∈ store, p.paper_id = r.paper_id))
    ∧ (∀ (papers : List BulkPaperInfo) (rb : Option String),
        (registerBulkRequest papers rb).method = .post
          ∧ (registerBulkRequest papers rb).body
            = some (.bulkRegister papers rb)) := by
  refine ⟨rfl, rfl, rfl, rfl, fun c s => rfl, ?_, fun p rb => ⟨rfl, rfl⟩⟩
  intro candidates store r hr
  rcases List.mem_map.mp hr with ⟨c, hc, rfl⟩
  simpa using findPaper_isSome_iff store c.paper_id

/-- A concrete provider candidate sharing the stored paper's identifier. -/
def sampleCandidate : ProviderCandidate :=
  { paper_id := "2306.02437"
    title := none
    authors := []
    year := none
    citation_count := 7
    abstract := none }

/-- The marked search result the preview produces for `sampleCandidate`. -/
def sampleMarked : SearchResultPaper :=
  { paper_id := "2306.02437"
    title := none
    authors := []
    year := none
    citation_count := 7
    abstract := none
    already_registered := true }

theorem preview_is_pure_read_witness :
    (previewOp [sampleCandidate] [stage1Paper]).2 = [stage1Paper]
    ∧ ∃ p ∈ [stage1Paper], p.paper_id = sampleMarked.paper_id :=
  ⟨preview_is_pure_read.2.2.2.2.1 [sampleCandidate] [stage1Paper],
    (preview_is_pure_read.2.2.2.2.2.1 [sampleCandidate] [stage1Paper]
        sampleMarked (by decide)).mp rfl⟩

/-- C7: a bulk registration of N distinct candidates of which M identifiers
are already present (and whose metadata fetches succeed) creates exactly
N−M new rows and exactly M skip entries, the same for every ordering of the
input; every candidate is attempted — the three outcome lists always
partition the input — and a per-item fetch failure is recorded in the failed
list with its reason while the rest of the batch is processed exactly as if
the failing item were the only one removed. -/
theorem bulk_registration_accounting :
    (∀ (fetchErr : String → Option String) (rb : Option String)
        (store : List PaperRec) (items : List BulkPaperInfo),
        (items.map fun i => i.paper_id).Nodup →
        (∀ i ∈ items, fetchErr i.paper_id = none) →
        (bulkRegisterOp fetchErr rb store items).1.registered.length
            = items.length
              - items.countP (fun i => (findPaper store i.paper_id).isSome)
          ∧ (bulkRegisterOp fetchErr rb store items).1.skipped.length
            = items.countP (fun i => (findPaper store i.paper_id).isSome)
          ∧ (bulkRegisterOp fetchErr rb store items).2.length
            = store.length
              + (items.length
                - items.countP (fun i => (findPaper store i.paper_id).isSome)))
    ∧ (∀ (fetchErr : String → Option String) (rb : Option String)
        (store : List PaperRec) (items₁ items₂ : List BulkPaperInfo),
        items₁.Perm items₂ →
        (items₁.map fun i => i.paper_id).Nodup →
        (∀ i ∈ items₁, fetchErr i.paper_id = none) →
        (bulkRegisterOp fetchErr rb store items₁).1.registered.length
            = (bulkRegisterOp fetchErr rb store items₂).1.registered.length
          ∧ (bulkRegisterOp fetchErr rb store items₁).1.skipped.length
            = (bulkRegisterOp fetchErr rb store items₂).1.skipped.length
          ∧ ((bulkRegisterOp fetchErr rb store items₁).2).Perm
              ((bulkRegisterOp fetchErr rb store items₂).2))
    ∧ (∀ (fetchErr : String → Option String) (rb : Option String)
        (store : List PaperRec) (items : List BulkPaperInfo),
        (bulkRegisterOp fetchErr rb store items).1.registered.length
          + (bulkRegisterOp fetchErr rb store items).1.skipped.length
          + (bulkRegisterOp fetchErr rb store items).1.failed.length
          = items.length)
    ∧ (∀ (fetchErr : String → Option String) (rb : Option String)
        (store : List PaperRec) (item : BulkPaperInfo)
        (rest : List BulkPaperInfo) (r : String),
        (findPaper store item.paper_id).isSome = false →
        fetchErr item.paper_id = some r →
        (bulkRegisterOp fetchErr rb store (item :: rest)).1.failed
            = (item.paper_id, r)
              :: (bulkRegisterOp fetchErr rb store rest).1.failed
          ∧ (bulkRegisterOp fetchErr rb store (item :: rest)).1.registered
            = (bulkRegisterOp fetchErr rb store rest).1.registered
          ∧ (bulkRegisterOp fetchErr rb store (item :: rest)).1.skipped
            = (bulkRegisterOp fetchErr rb store rest).1.skipped
          ∧ (bulkRegisterOp fetchErr rb store (item :: rest)).2
            = (bulkRegisterOp fetchErr rb store rest).2) := by
  have hmain :
      ∀ (fetchErr : String → Option String) (rb : Option String)
        (store : List PaperRec) (items : List BulkPaperInfo),
        (items.map fun i => i.paper_id).Nodup →
        (∀ i ∈ items, fetchErr i.paper_id = none) →
        (bulkRegisterOp fetchErr rb store items).1.registered.length
            = items.length
              - items.countP (fun i => (findPaper store i.paper_id).isSome)
          ∧ (bulkRegisterOp fetchErr rb store items).1.skipped.length
            = items.countP (fun i => (findPaper store i.paper_id).isSome)
          ∧ (bulkRegisterOp fetchErr rb store items).2.length
            = store.length
              + (items.length
                - items.countP (fun i => (findPaper store i.paper_id).isSome)) := by
    intro fetchErr rb store items hnd hok
    rcases bulkRegisterOp_counts fetchErr rb items store hnd hok with ⟨h1, h2, h3⟩
    have hsum := countP_add_countP_not
      (fun i => (findPaper store i.paper_id).isSome) items
    have hflip :
        items.countP (fun i => !(findPaper store i.paper_id).isSome)
          = items.length
            - items.countP (fun i => (findPaper store i.paper_id).isSome) := by
      omega
    refine ⟨by rw [h1, hflip], h2, ?_⟩
    rw [h3, List.length_append, List.length_map,
      ← List.countP_eq_length_filter, hflip]
  refine ⟨hmain, ?_, fun fe rb store items => bulkRegisterOp_total fe rb items store, ?_⟩
  · intro fetchErr rb store items₁ items₂ hperm hnd hok
    have hnd₂ : (items₂.map fun i => i.paper_id).Nodup :=
      ((hperm.map fun i => i.paper_id).nodup_iff).mp hnd
    have hok₂ : ∀ i ∈ items₂, fetchErr i.paper_id = none := fun i hi =>
      hok i (hperm.mem_iff.mpr hi)
    rcases bulkRegisterOp_counts fetchErr rb items₁ store hnd hok with
      ⟨h1, h2, h3⟩
    rcases bulkRegisterOp_counts fetchErr rb items₂ store hnd₂ hok₂ with
      ⟨g1, g2, g3⟩
    refine ⟨?_, ?_, ?_⟩
    · rw [h1, g1, hperm.countP_eq]
    · rw [h2, g2, hperm.countP_eq]
    · rw [h3, g3]
      exact List.Perm.append_left store
        ((hperm.filter (fun i => !(findPaper store i.paper_id).isSome)).map
          (fun i => mkBulkPaper i rb))
  · intro fetchErr rb store item rest r hpres hf
    refine ⟨?_, ?_, ?_, ?_⟩ <;>
      simp [bulkRegisterOp, hpres, hf]

/-- A two-element bulk request where the first identifier is already stored:
N = 2, M = 1. -/
def sampleBulkItems : List BulkPaperInfo :=
  [{ paper_id := "2306.02437", citation_count := 5 },
   { paper_id := "9999.00001", citation_count := 3 }]

theorem bulk_registration_accounting_witness :
    (bulkRegisterOp (fun _ => none) none [stage1Paper]
        sampleBulkItems).1.registered.length = 1
    ∧ (bulkRegisterOp (fun _ => none) none [stage1Paper]
        sampleBulkItems).1.skipped.length = 1 := by
  have h := bulk_registration_accounting.1 (fun _ => none) none [stage1Paper]
    sampleBulkItems (by decide) (fun i _ => rfl)
  refine ⟨?_, ?_⟩
  · rw [h.1]; decide
  · rw [h.2.1]; decide

/-- C8: toggling the favorite flag is an involution — toggling twice restores
the list exactly (for a store with pairwise-distinct identifiers) — and a
single toggle is fully characterized as copying the flipped flag onto the
matching papers only: any paper with a different identifier survives
unchanged. -/
theorem toggle_favorite_involution :
    (∀ (papers : List PaperRec) (pid : String),
        (papers.map fun p => p.paper_id).Nodup →
        handleToggleFavorite (handleToggleFavorite papers pid) pid = papers)
    ∧ (∀ (papers : List PaperRec) (pid : String) (p₀ : PaperRec),
        findPaper papers pid = some p₀ →
        handleToggleFavorite papers pid
          = papers.map fun q =>
              if q.paper_id == pid then
                { q with is_favorite := !p₀.is_favorite }
              else q)
    ∧ (∀ (papers : List PaperRec) (pid : String) (q : PaperRec),
        q ∈ papers → q.paper_id ≠ pid →
        q ∈ handleToggleFavorite papers pid) := by
  refine ⟨?_, handleToggleFavorite_found, ?_⟩
  · intro papers pid hnd
    cases hfind : findPaper papers pid with
    | none =>
        rw [handleToggleFavorite_not_found _ _ hfind,
          handleToggleFavorite_not_found _ _ hfind]
    | some p₀ =>
        have h1 := handleToggleFavorite_found papers pid p₀ hfind
        have hfind' := findPaper_map_toggle papers pid (!p₀.is_favorite) p₀ hfind
        rw [h1, handleToggleFavorite_found _ _ _ hfind', List.map_map]
        have hpt : ∀ q ∈ papers,
            ((fun q : PaperRec =>
                if q.paper_id == pid then
                  { q with
                      is_favorite :=
                        !(PaperRec.is_favorite
                          { p₀ with is_favorite := !p₀.is_favorite }) }
                else q) ∘ fun q : PaperRec =>
                if q.paper_id == pid then
                  { q with is_favorite := !p₀.is_favorite }
                else q) q = q := by
          intro q hq
          by_cases hqid : q.paper_id = pid
          · have hq₀ : q = p₀ := findPaper_unique papers pid p₀ hnd hfind q hq hqid
            subst hq₀
            have hbeq : (q.paper_id == pid) = true := beq_iff_eq.mpr hqid
            simp [Function.comp, hbeq]
          · simp [Function.comp, hqid]
        rw [List.map_congr_left hpt, List.map_id']
  · intro papers pid q hq hqid
    cases hfind : findPaper papers pid with
    | none => rw [handleToggleFavorite_not_found _ _ hfind]; exact hq
    | some p₀ =>
        rw [handleToggleFavorite_found _ _ _ hfind]
        have : (fun q : PaperRec =>
            if q.paper_id == pid then
              { q with is_favorite := !p₀.is_favorite }
            else q) q = q := by simp [hqid]
        exact List.mem_map.mpr ⟨q, hq, this⟩

theorem toggle_favorite_involution_witness :
    handleToggleFavorite (handleToggleFavorite [stage1Paper] "2306.02437")
        "2306.02437" = [stage1Paper] :=
  toggle_favorite_involution.1 [stage1Paper] "2306.02437"
    (by simp [stage1Paper])

/-- C9: `login` always establishes and persists a session — it is a total
function of the backend call's outcome, so the promise never rejects; on a
resolved backend call the session carries the server-returned username and
login time, on a rejected one the argument username and the client clock;
whenever the backend echoes the submitted username, the stored session's
username equals the argument in every case. -/
theorem login_always_establishes_session :
    ∀ (res : Except String LoginResponse) (now : String) (st : SessionState)
      (u : String),
      (login res now st u).session.isSome = true
      ∧ (login res now st u).localStorageSession = (login res now st u).session
      ∧ (∀ r, res = .ok r →
          (login res now st u).session
            = some { username := r.username, loginTime := r.login_time })
      ∧ (∀ e, res = .error e →
          (login res now st u).session
            = some { username := u, loginTime := now })
      ∧ ((∀ r, res = .ok r → r.username = u) →
          ∃ s, (login res now st u).session = some s ∧ s.username = u) := by
  intro res now st u
  cases res with
  | ok r =>
      refine ⟨rfl, rfl, ?_, ?_, ?_⟩
      · intro r' hr'
        cases hr'
        rfl
      · intro e he
        cases he
      · intro hecho
        exact ⟨_, rfl, hecho r rfl⟩
  | error e =>
      refine ⟨rfl, rfl, ?_, ?_, ?_⟩
      · intro r' hr'
        cases hr'
      · intro e' he'
        cases he'
        rfl
      · intro _
        exact ⟨_, rfl, rfl⟩

theorem login_always_establishes_session_witness :
    (login (.error "network down") "2026-10-11T00:00:00Z"
        { session := none, localStorageSession := none } "alice").session
      = some { username := "alice", loginTime := "2026-10-11T00:00:00Z" } :=
  (login_always_establishes_session (.error "network down")
      "2026-10-11T00:00:00Z"
      { session := none, localStorageSession := none } "alice").2.2.2.1
    "network down" rfl

/-- C10: in the topic-search modal the selection is always a subset of the
registrable (not already registered) candidate identifiers over any sequence
of UI events, select-all selects exactly the registrable candidates, the
checkbox of an already-registered row is disabled, the selection is empty
after a register action or a close, and (for results with distinct
identifiers) no selected identifier belongs to a candidate the preview marked
as already registered. -/
theorem modal_selection_invariant :
    (∀ (searchResults : List SearchResultPaper) (events : List ModalEvent),
        (∀ ev ∈ events, eventFireable searchResults ev) →
        ∀ x ∈ modalRun searchResults events, x ∈ registrableIds searchResults)
    ∧ (∀ (searchResults : List SearchResultPaper) (selected : Finset String),
        modalStep searchResults selected (.selectAll true)
          = (registrableIds searchResults).toFinset)
    ∧ (∀ p : SearchResultPaper, p.already_registered = true →
        rowCheckboxDisabled p = true)
    ∧ (∀ (searchResults : List SearchResultPaper) (selected : Finset String),
        modalStep searchResults selected .registerDone = ∅
          ∧ modalStep searchResults selected .closeModal = ∅)
    ∧ (∀ (searchResults : List SearchResultPaper) (x : String),
        (searchResults.map fun p => p.paper_id).Nodup →
        x ∈ registrableIds searchResults →
        ∀ p ∈ searchResults, p.paper_id = x →
          p.already_registered = false) := by
  refine ⟨modalRun_subset, fun sr sel => rfl, fun p hp => hp,
    fun sr sel => ⟨rfl, rfl⟩, ?_⟩
  intro sr x hnd hx p hp hpx
  rcases List.mem_map.mp hx with ⟨q, hq, hqx⟩
  have hqmem : q ∈ sr := (List.mem_filter.mp hq).1
  have hqreg : q.already_registered = false := by
    have := (List.mem_filter.mp hq).2
    simpa using this
  have hpq : p = q := List.inj_on_of_nodup_map hnd hp hqmem (by rw [hpx, hqx])
  rw [hpq]
  exact hqreg

/-- A registrable candidate alongside the already-registered `sampleMarked`. -/
def sampleUnregistered : SearchResultPaper :=
  { paper_id := "9999.00001"
    title := none
    authors := []
    year := none
    citation_count := 3
    abstract := none
    already_registered := false }

theorem modal_selection_invariant_witness :
    "9999.00001" ∈ registrableIds [sampleMarked, sampleUnregistered] :=
  modal_selection_invariant.1 [sampleMarked, sampleUnregistered]
    [.selectAll true]
    (by
      intro ev hev
      rcases List.mem_singleton.mp hev with rfl
      trivial)
    "9999.00001" (by decide)

theorem default_views_hide_not_interested_witness :
    (dashboardFetchFilters .all "" "created_at" "desc" 1 "" "").hide_not_interested
        = some true
    ∧ (dashboardFetchFilters .favorites "" "created_at" "desc" 1 "" "").hide_not_interested
        = some false :=
  ⟨(default_views_hide_not_interested .all "" "created_at" "desc" 1 "" "").1
      (Or.inl rfl),
    (default_views_hide_not_interested .favorites "" "created_at" "desc" 1 "" "").2
      (Or.inl rfl)⟩

end Researcher
